import Mathlib

/-!
Verification of the natural-language specification of the
`python-training` notebook repository against its code.

The repository contains two linear notebooks:
* `src/pages/gallery/500hPa_Vorticity_Advection.ipynb` — fetch NAM data
  through a THREDDS catalog / NCSS subset query, select the 500-hPa slices
  positionally, compute absolute vorticity and vorticity advection with
  `metpy.calc`, smooth with `scipy.ndimage.gaussian_filter`, and plot;
* `src/unnamed/part_000` (the xarray notebook) — open the same archived
  product over OPeNDAP by URL, select slices by coordinate labels with
  `.sel`, and plot.

The embedding below models 2-D fields as `Grid`, physical units as the
scale-factor model `UnitQ`/`Measured`, the external `metpy.calc` formulas
as black-box parameters (`CalcLib`), the Gaussian filter as an executable
normalised discrete kernel (modelled from the spec, since `scipy` is an
external collaborator), and the two selection paths (positional
`np.where` equality search, label-based `.sel`) as executable functions.
-/

namespace PyTraining

/-- A 2-D gridded scalar field: its dimensions and a table of rational
values.  Values are meaningful at indices below the bounds; out-of-range
sampling during filtering goes through boundary reflection, which only
reads in-bounds entries. -/
structure Grid where
  rows : ℕ
  cols : ℕ
  val : ℕ → ℕ → ℚ

/-- Index reflection used by the filter boundary mode `reflect` of
`scipy.ndimage`: the extension of `a b c d` is `… d c b a | a b c d | d c b a …`,
a period-`2n` pattern. -/
def reflectIdx (n : ℕ) (i : ℤ) : ℕ :=
  let j := (i % (2 * (n : ℤ))).toNat
  if j < n then j else 2 * n - 1 - j

theorem reflectIdx_lt (n : ℕ) (i : ℤ) (hn : 0 < n) : reflectIdx n i < n := by
  unfold reflectIdx
  have h2 : (0 : ℤ) < 2 * (n : ℤ) := by positivity
  have h0 : 0 ≤ i % (2 * (n : ℤ)) := Int.emod_nonneg i (by omega)
  have h1 : i % (2 * (n : ℤ)) < 2 * (n : ℤ) := Int.emod_lt_of_pos i h2
  have h3 : (i % (2 * (n : ℤ))).toNat < 2 * n := by omega
  dsimp only
  split <;> omega

/-- Discrete correlation of a weight list against a sampled signal,
starting at position `j`: the weighted sum of `f j, f (j+1), …`. -/
def corr : List ℚ → (ℤ → ℚ) → ℤ → ℚ
  | [], _, _ => 0
  | w :: ws, f, j => w * f j + corr ws f (j + 1)

theorem corr_const (c : ℚ) (f : ℤ → ℚ) (hf : ∀ j, f j = c) :
    ∀ (ws : List ℚ) (j : ℤ), corr ws f j = ws.sum * c := by
  intro ws
  induction ws with
  | nil => intro j; simp [corr]
  | cons w t ih =>
    intro j
    simp only [corr, hf, ih, List.sum_cons, add_mul]

theorem corr_nonneg : ∀ (ws : List ℚ) (f : ℤ → ℚ), (∀ w ∈ ws, 0 ≤ w) →
    (∀ t, 0 ≤ f t) → ∀ j, 0 ≤ corr ws f j := by
  intro ws f
  induction ws with
  | nil => intro _ _ j; simp [corr]
  | cons w t ih =>
    intro hw hf j
    show 0 ≤ w * f j + corr t f (j + 1)
    have h1 : 0 ≤ w * f j := mul_nonneg (hw w (List.mem_cons_self w t)) (hf j)
    have h2 := ih (fun x hx => hw x (List.mem_cons_of_mem w hx)) hf (j + 1)
    linarith

theorem corr_pos : ∀ (ws : List ℚ) (f : ℤ → ℚ), (∀ w ∈ ws, 0 < w) →
    (∀ t, 0 ≤ f t) → ∀ (j : ℤ) (k : ℕ), k < ws.length →
    0 < f (j + (k : ℤ)) → 0 < corr ws f j := by
  intro ws f
  induction ws with
  | nil => intro _ _ j k hk _; simp at hk
  | cons w t ih =>
    intro hw hf j k hk hpos
    have hw0 : 0 < w := hw w (List.mem_cons_self w t)
    have hwt : ∀ x ∈ t, 0 < x := fun x hx => hw x (List.mem_cons_of_mem w hx)
    show 0 < w * f j + corr t f (j + 1)
    cases k with
    | zero =>
      have hfj : 0 < f j := by simpa using hpos
      have h2 : 0 ≤ corr t f (j + 1) :=
        corr_nonneg t f (fun x hx => le_of_lt (hwt x hx)) hf (j + 1)
      have h3 := mul_pos hw0 hfj
      linarith
    | succ k =>
      have h1 : 0 ≤ w * f j := mul_nonneg (le_of_lt hw0) (hf j)
      have h2 : 0 < corr t f (j + 1) := by
        apply ih hwt hf (j + 1) k (Nat.lt_of_succ_lt_succ hk)
        have hcast : j + 1 + (k : ℤ) = j + ((k + 1 : ℕ) : ℤ) := by
          push_cast
          ring
        rw [hcast]
        exact hpos
      linarith

/-- Truncated Taylor polynomial of the exponential, used as a positive
rational surrogate for `exp x` at nonnegative arguments (the Gaussian bell
value is its reciprocal). -/
def expT (x : ℚ) : ℚ := 1 + x + x ^ 2 / 2 + x ^ 3 / 6 + x ^ 4 / 24

theorem expT_posOn (x : ℚ) (hx : 0 ≤ x) : 0 < expT x := by
  have h2 : 0 ≤ x ^ 2 := pow_nonneg hx 2
  have h3 : 0 ≤ x ^ 3 := pow_nonneg hx 3
  have h4 : 0 ≤ x ^ 4 := pow_nonneg hx 4
  unfold expT
  linarith

/-- Modelled from the spec: `scipy.ndimage.gaussian_filter` is a black-box
external collaborator ("apply a Gaussian low-pass filter (configurable
sigma …)"); this is its discrete bell value at integer offset `i` for
standard deviation `sigma`, as a positive rational. -/
def gaussWeight (sigma : ℚ) (i : ℤ) : ℚ :=
  1 / expT ((i : ℚ) ^ 2 / (2 * sigma ^ 2))

theorem gaussWeight_pos (sigma : ℚ) (i : ℤ) : 0 < gaussWeight sigma i := by
  have harg : 0 ≤ (i : ℚ) ^ 2 / (2 * sigma ^ 2) :=
    div_nonneg (by positivity) (by positivity)
  have h := expT_posOn _ harg
  unfold gaussWeight
  exact div_pos one_pos h

/-- Kernel radius of the filter: `scipy` truncates the kernel at
`int(truncate * sigma + 0.5)` with `truncate = 4`; for `sigma = num/den`
this is the integer quotient `(8*num + den) / (2*den)`, written on the
numerator and denominator so that it evaluates by integer arithmetic. -/
def radius (sigma : ℚ) : ℕ :=
  ((8 * sigma.num + (sigma.den : ℤ)) / (2 * (sigma.den : ℤ))).toNat

/-- The unnormalised Gaussian kernel: bell values at offsets `-r … r`. -/
def rawKernel (sigma : ℚ) : List ℚ :=
  (List.range (2 * radius sigma + 1)).map fun k : ℕ =>
    gaussWeight sigma ((k : ℤ) - (radius sigma : ℤ))

theorem rawKernel_sum_pos (sigma : ℚ) : 0 < (rawKernel sigma).sum := by
  apply List.sum_pos
  · intro w hw
    obtain ⟨k, _, rfl⟩ := List.mem_map.mp hw
    exact gaussWeight_pos _ _
  · have : (rawKernel sigma).length = 2 * radius sigma + 1 := by
      rw [rawKernel, List.length_map, List.length_range]
    intro hnil
    rw [hnil] at this
    simp at this

/-- The normalised Gaussian kernel: `scipy` divides the bell values by
their sum so that the weights sum to one. -/
def kernel (sigma : ℚ) : List ℚ :=
  (rawKernel sigma).map fun w => w / (rawKernel sigma).sum

theorem list_sum_map_div (l : List ℚ) (d : ℚ) :
    (l.map fun w => w / d).sum = l.sum / d := by
  induction l with
  | nil => simp
  | cons a t ih => simp [ih, add_div]

theorem kernel_sum_one (sigma : ℚ) : (kernel sigma).sum = 1 := by
  unfold kernel
  rw [list_sum_map_div]
  exact div_self (ne_of_gt (rawKernel_sum_pos sigma))

theorem kernel_mem_pos (sigma : ℚ) : ∀ w ∈ kernel sigma, 0 < w := by
  intro w hw
  obtain ⟨x, hx, rfl⟩ := List.mem_map.mp hw
  exact div_pos
    (by
      obtain ⟨k, _, rfl⟩ := List.mem_map.mp hx
      exact gaussWeight_pos _ _)
    (rawKernel_sum_pos sigma)

/-- One filtering pass along axis 0 (down the rows), sampling out-of-range
row indices by reflection. -/
def smoothV (ws : List ℚ) (r : ℕ) (g : Grid) : Grid :=
  ⟨g.rows, g.cols, fun i j =>
    corr ws (fun t => g.val (reflectIdx g.rows t) j) ((i : ℤ) - (r : ℤ))⟩

/-- One filtering pass along axis 1 (across the columns), sampling
out-of-range column indices by reflection. -/
def smoothH (ws : List ℚ) (r : ℕ) (g : Grid) : Grid :=
  ⟨g.rows, g.cols, fun i j =>
    corr ws (fun t => g.val i (reflectIdx g.cols t)) ((j : ℤ) - (r : ℤ))⟩

/-- Modelled from the spec: `scipy.ndimage.gaussian_filter` on a 2-D field
(`order=0`) — a separable pass of the normalised 1-D Gaussian kernel along
axis 0 and then axis 1, with boundary reflection. -/
def gaussian_filter (sigma : ℚ) (g : Grid) : Grid :=
  smoothH (kernel sigma) (radius sigma) (smoothV (kernel sigma) (radius sigma) g)

/-- C7: smoothing a constant-valued 2-D field with any sigma returns the
same constant field — the dimensions are unchanged and every in-bounds
entry still holds the constant. -/
theorem gaussianFilter_const (g : Grid) (c sigma : ℚ)
    (hconst : ∀ i j, i < g.rows → j < g.cols → g.val i j = c) :
    (gaussian_filter sigma g).rows = g.rows ∧
    (gaussian_filter sigma g).cols = g.cols ∧
    ∀ i j, i < g.rows → j < g.cols → (gaussian_filter sigma g).val i j = c := by
  refine ⟨rfl, rfl, ?_⟩
  intro i j hi hj
  have hr : 0 < g.rows := by omega
  have hc : 0 < g.cols := by omega
  have hsum := kernel_sum_one sigma
  have step1 : ∀ i' j', j' < g.cols →
      (smoothV (kernel sigma) (radius sigma) g).val i' j' = c := by
    intro i' j' hj'
    show corr (kernel sigma) _ _ = c
    rw [corr_const c _ (fun t => hconst _ _ (reflectIdx_lt _ _ hr) hj'), hsum,
      one_mul]
  show corr (kernel sigma) _ _ = c
  have hf : ∀ t, (smoothV (kernel sigma) (radius sigma) g).val i
      (reflectIdx (smoothV (kernel sigma) (radius sigma) g).cols t) = c := by
    intro t
    exact step1 i _ (reflectIdx_lt _ _ hc)
  rw [corr_const c _ hf, hsum, one_mul]

theorem gaussianFilter_const_witness :
    (gaussian_filter 3 ⟨1, 1, fun _ _ => 5⟩).val 0 0 = 5 :=
  (gaussianFilter_const ⟨1, 1, fun _ _ => 5⟩ 5 3
    (fun _ _ _ _ => rfl)).2.2 0 0 (by decide) (by decide)

/-- C8: the smoothing step is a deterministic function of its arguments —
two runs on identical input and identical sigma produce identical
output. -/
theorem gaussianFilter_deterministic (s1 s2 : ℚ) (g1 g2 : Grid)
    (hs : s1 = s2) (hg : g1 = g2) :
    gaussian_filter s1 g1 = gaussian_filter s2 g2 := by
  rw [hs, hg]

theorem gaussianFilter_deterministic_witness :
    gaussian_filter 3 ⟨1, 2, fun _ j => (j : ℚ)⟩ =
      gaussian_filter 3 ⟨1, 2, fun _ j => (j : ℚ)⟩ :=
  gaussianFilter_deterministic 3 3 ⟨1, 2, fun _ j => (j : ℚ)⟩
    ⟨1, 2, fun _ j => (j : ℚ)⟩ rfl rfl

/-! ## Units and measured fields

Modelled from the spec: the `pint` unit registry used through
`metpy.units` is an external collaborator; the spec only requires that
"each quantity carries a physical unit" and that conversions rescale the
magnitude.  A unit is a dimension name together with the rational scale
factor to the base unit of that dimension; a measured field is a raw
magnitude grid tagged with a unit. -/

structure UnitQ where
  uname : String
  factor : ℚ
  deriving DecidableEq

/-- The unit `meter` (`units.meter`). -/
def meterU : UnitQ := ⟨("meter"), 1⟩

/-- The unit `m/s` (`units('m/s')`). -/
def mpsU : UnitQ := ⟨("meter / second"), 1⟩

/-- The unit `1/sec` (`units('1/sec')`, also written `units('1/s')`). -/
def perSecU : UnitQ := ⟨("1 / second"), 1⟩

/-- The unit `kilometer`, a non-base length unit used to exercise
conversions. -/
def kmU : UnitQ := ⟨("kilometer"), 1000⟩

/-- A magnitude tagged with a physical unit. -/
structure Measured (α : Type) where
  mag : α
  u : UnitQ

/-- Pointwise scaling of a grid by a rational. -/
def Grid.smul (c : ℚ) (g : Grid) : Grid :=
  ⟨g.rows, g.cols, fun i j => c * g.val i j⟩

/-- Unit conversion `.to(target)` on a measured field: the magnitude is
rescaled by the ratio of the scale factors and the tag is replaced. -/
def mto (q : Measured Grid) (t : UnitQ) : Measured Grid :=
  ⟨Grid.smul (q.u.factor / t.factor) q.mag, t⟩

/-- Tagging a raw array with a unit by multiplication, as in
`units('m/s') * array`: no magnitude change, the tag is attached. -/
def tagUnit (u0 : UnitQ) (g : Grid) : Measured Grid := ⟨g, u0⟩

/-- Addition of measured fields, as `pint` performs it: the right operand
is converted to the left operand's unit and the magnitudes are added. -/
def mAdd (a b : Measured Grid) : Measured Grid :=
  ⟨⟨a.mag.rows, a.mag.cols, fun i j =>
      a.mag.val i j + (b.u.factor / a.u.factor) * b.mag.val i j⟩, a.u⟩

/-- Scalar multiplication of a measured field (`quantity * 1e9`): the
magnitude is scaled, the unit is kept. -/
def mSmul (c : ℚ) (q : Measured Grid) : Measured Grid :=
  ⟨Grid.smul c q.mag, q.u⟩

/-- The smoothing step as written at lines 96 and 124 of the
vorticity-advection notebook: `gaussian_filter(q, sigma) * unit`.  The
filter coerces its argument to a plain array, so any unit tag on the
input is dropped and the filter runs on the raw magnitudes; the product
then attaches the hardcoded unit `u0`. -/
def smoothRetag (sigma : ℚ) (u0 : UnitQ) (q : Measured Grid) : Measured Grid :=
  ⟨gaussian_filter sigma q.mag, u0⟩

theorem mgrid_ext {a b : Measured Grid} (h1 : a.mag.rows = b.mag.rows)
    (h2 : a.mag.cols = b.mag.cols) (h3 : ∀ i j, a.mag.val i j = b.mag.val i j)
    (h4 : a.u = b.u) : a = b := by
  obtain ⟨⟨r1, c1, f1⟩, u1⟩ := a
  obtain ⟨⟨r2, c2, f2⟩, u2⟩ := b
  dsimp at h1 h2 h3 h4
  subst h1; subst h2; subst h4
  have hf : f1 = f2 := funext fun i => funext fun j => h3 i j
  subst hf
  rfl

/-- C6: a unit conversion applied to a field, followed by the conversion
back to the original unit, returns exactly the original measured field;
and tagging a raw wind component with `m/s` then converting to `m/s` is
the identity. -/
theorem unit_roundtrip (q : Measured Grid) (t : UnitQ)
    (hq : q.u.factor ≠ 0) (ht : t.factor ≠ 0) :
    mto (mto q t) q.u = q ∧
    ∀ g : Grid, mto (tagUnit mpsU g) mpsU = tagUnit mpsU g := by
  constructor
  · refine mgrid_ext rfl rfl ?_ rfl
    intro i j
    show (t.factor / q.u.factor) * ((q.u.factor / t.factor) * q.mag.val i j) =
      q.mag.val i j
    field_simp
    ring
  · intro g
    refine mgrid_ext rfl rfl ?_ rfl
    intro i j
    show (mpsU.factor / mpsU.factor) * g.val i j = g.val i j
    norm_num [mpsU]

theorem unit_roundtrip_witness :
    mto (mto ⟨⟨1, 1, fun _ _ => 5⟩, kmU⟩ meterU) kmU =
      ⟨⟨1, 1, fun _ _ => 5⟩, kmU⟩ :=
  (unit_roundtrip ⟨⟨1, 1, fun _ _ => 5⟩, kmU⟩ meterU
    (by norm_num [kmU]) (by norm_num [meterU])).1

/-! ## The derived-quantity stage of the vorticity-advection notebook

The physical formulas (`metpy.calc.vorticity`, `advection`,
`coriolis_parameter`, `lat_lon_grid_deltas`, and `numpy.deg2rad`) are
external black-box collaborators; the embedding carries them as
parameters, and the obligation verified here is argument assembly. -/

structure CalcLib where
  vorticity : Measured Grid → Measured Grid → Measured Grid → Measured Grid → Measured Grid
  advection : Measured Grid → Measured Grid → Measured Grid → Measured Grid → Measured Grid → Measured Grid
  coriolis_parameter : Grid → Measured Grid
  lat_lon_grid_deltas : Grid → Grid → Measured Grid × Measured Grid
  deg2rad : Grid → Grid

/-- All quantities computed in the calculation cell of the
vorticity-advection notebook, including the absolute-vorticity value
before the smoothing overwrite. -/
structure CalcOut where
  dx : Measured Grid
  dy : Measured Grid
  f : Measured Grid
  avor_presmooth : Measured Grid
  avor : Measured Grid
  vort_adv : Measured Grid

/-- The calculation cell of the vorticity-advection notebook:
grid deltas from the lon/lat arrays, the Coriolis parameter from latitude
(in radians) converted to `1/sec`, absolute vorticity as relative
vorticity plus the Coriolis term, the Gaussian smoothing overwrite of
`avor` (sigma 3, retagged `1/s`), and vorticity advection of the smoothed
field by the wind pair, scaled by `1e9`. -/
def calcStage (lib : CalcLib) (lon lat : Grid) (uwnd_500 vwnd_500 : Measured Grid) :
    CalcOut :=
  let d := lib.lat_lon_grid_deltas lon lat
  let dx := d.1
  let dy := d.2
  let f := mto (lib.coriolis_parameter (lib.deg2rad lat)) perSecU
  let avor1 := mAdd (lib.vorticity uwnd_500 vwnd_500 dx dy) f
  let avor := smoothRetag 3 perSecU avor1
  let vort_adv := mSmul 1000000000 (lib.advection avor uwnd_500 vwnd_500 dx dy)
  ⟨dx, dy, f, avor1, avor, vort_adv⟩

/-- C1: absolute vorticity is the relative vorticity of the wind pair —
with the grid deltas derived from the lon/lat coordinate arrays — plus
the Coriolis parameter computed from latitude, and vorticity advection is
the advection of the Gaussian-smoothed absolute-vorticity field by the
same wind pair with the same grid deltas (the stored value carries the
display scale factor `1e9`). -/
theorem avor_vortAdv_assembly (lib : CalcLib) (lon lat : Grid)
    (u v : Measured Grid) :
    (calcStage lib lon lat u v).avor_presmooth =
      mAdd
        (lib.vorticity u v (lib.lat_lon_grid_deltas lon lat).1
          (lib.lat_lon_grid_deltas lon lat).2)
        (mto (lib.coriolis_parameter (lib.deg2rad lat)) perSecU) ∧
    (calcStage lib lon lat u v).avor =
      smoothRetag 3 perSecU ((calcStage lib lon lat u v).avor_presmooth) ∧
    (calcStage lib lon lat u v).vort_adv =
      mSmul 1000000000
        (lib.advection ((calcStage lib lon lat u v).avor) u v
          (lib.lat_lon_grid_deltas lon lat).1
          (lib.lat_lon_grid_deltas lon lat).2) :=
  ⟨rfl, rfl, rfl⟩

/-- The all-zero 1 × 2 grid, used for the concrete instantiation below. -/
def zGrid : Grid := ⟨1, 2, fun _ _ => 0⟩

/-- A non-constant 1 × 2 grid (0 and 1000000), whose Gaussian smoothing
differs from itself. -/
def g01 : Grid := ⟨1, 2, fun _ j => if j = 0 then 0 else 1000000⟩

/-- A concrete instantiation of the external calculation library:
`vorticity` returns the non-constant grid `g01`, `advection` returns its
advected-scalar argument unchanged, and the remaining functions return
zeros. -/
def ceLib : CalcLib where
  vorticity := fun _ _ _ _ => ⟨g01, perSecU⟩
  advection := fun s _ _ _ _ => s
  coriolis_parameter := fun _ => ⟨zGrid, perSecU⟩
  lat_lon_grid_deltas := fun _ _ => (⟨zGrid, meterU⟩, ⟨zGrid, meterU⟩)
  deg2rad := fun g => g

/-- Smoothing the 1 × 2 step field `g01` with sigma 3 yields a strictly
positive top-left value: the kernel weights are positive and the
reflected samples include the positive entry. -/
theorem gaussianFilter_g01_pos (G : Grid) (_hrows : G.rows = 1)
    (hcols : G.cols = 2)
    (hval : ∀ i j, G.val i j = if j = 0 then 0 else 1000000) :
    0 < (gaussian_filter 3 G).val 0 0 := by
  have hkpos := kernel_mem_pos 3
  have hknn : ∀ w ∈ kernel 3, 0 ≤ w := fun w hw => le_of_lt (hkpos w hw)
  have hr0 : 0 < radius 3 := by decide
  have hlen : (kernel 3).length = 2 * radius 3 + 1 := by
    rw [kernel, List.length_map, rawKernel, List.length_map, List.length_range]
  have hVnn : ∀ i j, 0 ≤ (smoothV (kernel 3) (radius 3) G).val i j := by
    intro i j
    show 0 ≤ corr (kernel 3) _ _
    apply corr_nonneg _ _ hknn
    intro t
    rw [hval]
    split <;> norm_num
  have hV1 : (smoothV (kernel 3) (radius 3) G).val 0 1 = 1000000 := by
    show corr (kernel 3) (fun t => G.val (reflectIdx G.rows t) 1)
      (((0 : ℕ) : ℤ) - ((radius 3 : ℕ) : ℤ)) = 1000000
    have hf : ∀ t : ℤ, G.val (reflectIdx G.rows t) 1 = 1000000 := by
      intro t
      rw [hval]
      norm_num
    rw [corr_const 1000000 _ hf, kernel_sum_one, one_mul]
  have hk : radius 3 + 1 < (kernel 3).length := by
    rw [hlen]
    omega
  show 0 < corr (kernel 3)
      (fun t => (smoothV (kernel 3) (radius 3) G).val 0 (reflectIdx G.cols t))
      (((0 : ℕ) : ℤ) - ((radius 3 : ℕ) : ℤ))
  apply corr_pos (kernel 3) _ hkpos (fun t => hVnn 0 _) _ (radius 3 + 1) hk
  have harith : ((0 : ℕ) : ℤ) - ((radius 3 : ℕ) : ℤ) +
      ((radius 3 + 1 : ℕ) : ℤ) = 1 := by
    push_cast
    ring
  show 0 < (smoothV (kernel 3) (radius 3) G).val 0
    (reflectIdx G.cols (((0 : ℕ) : ℤ) - ((radius 3 : ℕ) : ℤ) +
      ((radius 3 + 1 : ℕ) : ℤ)))
  rw [harith, hcols]
  have h21 : reflectIdx 2 1 = 1 := by decide
  rw [h21]
  rw [hV1]
  norm_num

/-- C4 counterexample: it is not the case that every derived-quantity
computation reads only unsmoothed fields — at this concrete
instantiation, the vorticity-advection value computed by the notebook
differs from the advection of the unsmoothed absolute-vorticity field,
because the advection call reads the Gaussian-smoothed field. -/
theorem smoothedFeedsAdvection_counterexample :
    (calcStage ceLib zGrid zGrid ⟨zGrid, mpsU⟩ ⟨zGrid, mpsU⟩).vort_adv.mag.val 0 0 ≠
      (mSmul 1000000000
        (ceLib.advection
          ((calcStage ceLib zGrid zGrid ⟨zGrid, mpsU⟩ ⟨zGrid, mpsU⟩).avor_presmooth)
          ⟨zGrid, mpsU⟩ ⟨zGrid, mpsU⟩
          (ceLib.lat_lon_grid_deltas zGrid zGrid).1
          (ceLib.lat_lon_grid_deltas zGrid zGrid).2)).mag.val 0 0 := by
  have hL : (calcStage ceLib zGrid zGrid ⟨zGrid, mpsU⟩ ⟨zGrid, mpsU⟩).vort_adv.mag.val 0 0 =
      1000000000 * (gaussian_filter 3
        ((calcStage ceLib zGrid zGrid ⟨zGrid, mpsU⟩ ⟨zGrid, mpsU⟩).avor_presmooth.mag)).val 0 0 :=
    rfl
  have hR : (mSmul 1000000000
      (ceLib.advection
        ((calcStage ceLib zGrid zGrid ⟨zGrid, mpsU⟩ ⟨zGrid, mpsU⟩).avor_presmooth)
        ⟨zGrid, mpsU⟩ ⟨zGrid, mpsU⟩
        (ceLib.lat_lon_grid_deltas zGrid zGrid).1
        (ceLib.lat_lon_grid_deltas zGrid zGrid).2)).mag.val 0 0 =
      1000000000 *
        (calcStage ceLib zGrid zGrid ⟨zGrid, mpsU⟩ ⟨zGrid, mpsU⟩).avor_presmooth.mag.val 0 0 :=
    rfl
  have hval : ∀ i j,
      (calcStage ceLib zGrid zGrid ⟨zGrid, mpsU⟩ ⟨zGrid, mpsU⟩).avor_presmooth.mag.val i j =
        if j = 0 then 0 else 1000000 := by
    intro i j
    show g01.val i j + (perSecU.factor / perSecU.factor) *
        ((Grid.smul (perSecU.factor / perSecU.factor) zGrid).val i j) = _
    simp [g01, zGrid, Grid.smul, perSecU]
  have hG := gaussianFilter_g01_pos
    ((calcStage ceLib zGrid zGrid ⟨zGrid, mpsU⟩ ⟨zGrid, mpsU⟩).avor_presmooth.mag)
    rfl rfl hval
  rw [hL, hR, hval 0 0]
  have hif : (if (0 : ℕ) = 0 then (0 : ℚ) else 1000000) = 0 := by norm_num
  rw [hif, mul_zero]
  exact ne_of_gt (mul_pos (show (0 : ℚ) < 1000000000 by norm_num) hG)

/-- C4 amended: the grid-delta, Coriolis, and absolute-vorticity
computations read only unsmoothed fields, but the vorticity-advection
computation reads the Gaussian-smoothed absolute-vorticity field as its
advected scalar (the smoothed height field feeds only the plot). -/
theorem smoothing_usage (lib : CalcLib) (lon lat : Grid) (u v : Measured Grid) :
    (calcStage lib lon lat u v).dx = (lib.lat_lon_grid_deltas lon lat).1 ∧
    (calcStage lib lon lat u v).dy = (lib.lat_lon_grid_deltas lon lat).2 ∧
    (calcStage lib lon lat u v).f =
      mto (lib.coriolis_parameter (lib.deg2rad lat)) perSecU ∧
    (calcStage lib lon lat u v).avor_presmooth =
      mAdd
        (lib.vorticity u v ((calcStage lib lon lat u v).dx)
          ((calcStage lib lon lat u v).dy))
        ((calcStage lib lon lat u v).f) ∧
    (calcStage lib lon lat u v).vort_adv =
      mSmul 1000000000
        (lib.advection
          (smoothRetag 3 perSecU ((calcStage lib lon lat u v).avor_presmooth))
          u v ((calcStage lib lon lat u v).dx) ((calcStage lib lon lat u v).dy)) :=
  ⟨rfl, rfl, rfl, rfl, rfl⟩

/-- C10: the smoothing-and-retag step depends only on the input's raw
magnitudes — inputs with equal magnitudes and different units produce
identical output — and its output carries exactly the hardcoded unit,
with magnitude the filtered input magnitude; in the notebook the
absolute-vorticity instance hardcodes `1/s`. -/
theorem smoothRetag_hardcodedUnit (sigma : ℚ) (u0 : UnitQ)
    (q q' : Measured Grid) (hmag : q.mag = q'.mag) :
    smoothRetag sigma u0 q = smoothRetag sigma u0 q' ∧
    (smoothRetag sigma u0 q).u = u0 ∧
    (smoothRetag sigma u0 q).mag = gaussian_filter sigma q.mag ∧
    ∀ (lib : CalcLib) (lon lat : Grid) (u v : Measured Grid),
      (calcStage lib lon lat u v).avor =
        smoothRetag 3 perSecU ((calcStage lib lon lat u v).avor_presmooth) := by
  refine ⟨?_, rfl, rfl, fun _ _ _ _ _ => rfl⟩
  unfold smoothRetag
  rw [hmag]

theorem smoothRetag_hardcodedUnit_witness :
    smoothRetag 3 perSecU ⟨zGrid, mpsU⟩ = smoothRetag 3 perSecU ⟨zGrid, meterU⟩ :=
  (smoothRetag_hardcodedUnit 3 perSecU ⟨zGrid, mpsU⟩ ⟨zGrid, meterU⟩ rfl).1

/-! ## Selection

The vorticity-advection notebook finds the 500-hPa index positionally:
`lev_500 = np.where(ds.variables['isobaric'][:] == 500)[0][0]`, i.e. the
array of indices at which the vertical coordinate equals 500, then its
first element (indexing an empty result raises `IndexError`).  The xarray
notebook selects by coordinate labels:
`.sel(time1=vtimes[0], isobaric=500)` (a missing label raises
`KeyError`).  A raised exception is modelled as `none`. -/

/-- The `np.where(xs == v)[0]` index array: all positions of `xs` holding
exactly `v`, in order. -/
def npWhereEq (xs : List ℚ) (v : ℚ) : List ℕ :=
  (xs.enum.filter fun p => p.2 == v).map Prod.fst

/-- First index of `xs` holding exactly `v`, if any: the shared exact
equality search behind both the positional path
(`np.where(... == v)[0][0]`) and the label lookup of `.sel`. -/
def lookupIdx (xs : List ℚ) (v : ℚ) : Option ℕ := (npWhereEq xs v).head?

/-- Label-based selection on a variable with a time coordinate, a
vertical coordinate, and a cube of 2-D slices indexed positionally by
(time index, level index): `.sel(time1=t, isobaric=lev)`.  An absent
label is a lookup error (`none`); no interpolation is performed. -/
def selTL (times levels : List ℚ) (cube : ℕ → ℕ → Grid) (t lev : ℚ) :
    Option Grid :=
  match lookupIdx times t, lookupIdx levels lev with
  | some i, some j => some (cube i j)
  | _, _ => none

/-- Positional selection `ds.variables[name][0, lev, :, :]`. -/
def positionalSel (var : ℕ → ℕ → Grid) (lev : ℕ) : Grid := var 0 lev

theorem filter_enumFrom_nil (v : ℚ) :
    ∀ (xs : List ℚ) (n : ℕ), v ∉ xs →
      (xs.enumFrom n).filter (fun p => p.2 == v) = [] := by
  intro xs
  induction xs with
  | nil => intro n _; rfl
  | cons a t ih =>
    intro n hv
    have ha : (a == v) = false := by
      have : a ≠ v := fun he => hv (he ▸ List.mem_cons_self a t)
      simpa using this
    simp only [List.enumFrom_cons, List.filter_cons, ha]
    exact ih (n + 1) (fun h => hv (List.mem_cons_of_mem a h))

theorem lookup_enumFrom_eq (v : ℚ) :
    ∀ (xs : List ℚ) (j n : ℕ), xs.Nodup → xs[j]? = some v →
      ((((xs.enumFrom n).filter fun p => p.2 == v).map Prod.fst).head?) =
        some (n + j) := by
  intro xs
  induction xs with
  | nil => intro j n _ h; simp at h
  | cons a t ih =>
    intro j n hnd h
    match j with
    | 0 =>
      have hav : a = v := by simpa using h
      subst hav
      simp [List.enumFrom_cons, List.filter_cons]
    | k + 1 =>
      have ht : t[k]? = some v := by simpa using h
      have hvmem : v ∈ t := List.getElem?_mem ht
      have ha : (a == v) = false := by
        have : a ≠ v := fun he => (List.nodup_cons.mp hnd).1 (he ▸ hvmem)
        simpa using this
      have hrec := ih k (n + 1) (List.nodup_cons.mp hnd).2 ht
      simp only [List.enumFrom_cons, List.filter_cons, ha, Bool.false_eq_true,
        if_false]
      rw [hrec]
      congr 1
      omega

theorem lookupIdx_eq_of_getElem (xs : List ℚ) (j : ℕ) (v : ℚ)
    (hnd : xs.Nodup) (h : xs[j]? = some v) : lookupIdx xs v = some j := by
  have := lookup_enumFrom_eq v xs j 0 hnd h
  simpa [lookupIdx, npWhereEq, List.enum] using this

theorem lookupIdx_none_of_not_mem (xs : List ℚ) (v : ℚ) (h : v ∉ xs) :
    lookupIdx xs v = none := by
  have := filter_enumFrom_nil v xs 0 h
  simp [lookupIdx, npWhereEq, List.enum, this]

/-! ## Valid time -/

/-- Modelled from the spec: `netCDF4.num2date` decodes the time
coordinate "as an offset from an epoch" — epoch plus scale times the raw
coordinate value, in seconds. -/
def num2date (epoch scale raw : ℚ) : ℚ := epoch + scale * raw

/-- Modelled from the spec: `datetime.utcfromtimestamp` applied to a
nanosecond epoch offset divided by `1e9` — the decoded valid time in
seconds since the epoch. -/
def nsToTime (ns : ℚ) : ℚ := ns / 1000000000

/-- Rendering of a valid time when interpolated into a title string. -/
def timeStr (q : ℚ) : String := toString q.num ++ ":" ++ toString q.den

/-! ## The acquisition cell of the vorticity-advection notebook -/

/-- The data the NCSS query returns, as the notebook reads it: lon/lat
arrays, the vertical coordinate, the (squeezed) raw time value with its
epoch/scale decoding data, and the three variables as cubes of 2-D
slices indexed by (time index, level index). -/
structure NcssData where
  lon : Grid
  lat : Grid
  isobaric : List ℚ
  timeRaw : ℚ
  timeEpoch : ℚ
  timeScale : ℚ
  hght : ℕ → ℕ → Grid
  uwnd : ℕ → ℕ → Grid
  vwnd : ℕ → ℕ → Grid

/-- The values bound by the acquisition cell. -/
structure Selected where
  vtime : ℚ
  lev_500 : ℕ
  hght_500 : Measured Grid
  uwnd_500 : Measured Grid
  vwnd_500 : Measured Grid

/-- The acquisition cell: decode the valid time, find the 500-hPa index
by exact positional search (an empty search result is a raised
`IndexError`, i.e. `none`), take the `[0, lev_500]` slices, smooth and
tag the height with `meter`, and tag the wind components with `m/s`. -/
def acquire (ds : NcssData) : Option Selected :=
  ((npWhereEq ds.isobaric 500).head?).map fun j =>
    { vtime := num2date ds.timeEpoch ds.timeScale ds.timeRaw
      lev_500 := j
      hght_500 := ⟨gaussian_filter 3 (positionalSel ds.hght j), meterU⟩
      uwnd_500 := tagUnit mpsU (positionalSel ds.uwnd j)
      vwnd_500 := tagUnit mpsU (positionalSel ds.vwnd j) }

/-- The right-hand plot title of the vorticity-advection notebook. -/
def vortTitleRight (s : Selected) : String := "VALID: " ++ timeStr s.vtime

/-! ## The xarray notebook -/

/-- The dataset the xarray notebook opens: the `time` coordinate in
nanoseconds since the epoch, the `time1` and `isobaric` coordinates of
the isobaric variables (in decoded seconds and hPa), and the three
variables as cubes of 2-D slices indexed by (time index, level index). -/
structure XrDataset where
  timeNs : List ℚ
  da_times : List ℚ
  da_levels : List ℚ
  hght : ℕ → ℕ → Grid
  uwnd : ℕ → ℕ → Grid
  vwnd : ℕ → ℕ → Grid

/-- The values bound by the xarray notebook. -/
structure XrOut where
  vtimes : List ℚ
  selTime : ℚ
  hght_500 : Option Grid
  uwnd_500 : Option Grid
  vwnd_500 : Option Grid
  titleRight : String

/-- The xarray notebook run: decode every time value, take `vtimes[0]`
(an empty list is a raised `IndexError`, i.e. `none`), select the three
variables by labels at that time and level 500, and build the right-hand
title. -/
def xrRun (ds : XrDataset) : Option XrOut :=
  let vtimes := ds.timeNs.map nsToTime
  vtimes.head?.map fun t0 =>
    { vtimes := vtimes
      selTime := t0
      hght_500 := selTL ds.da_times ds.da_levels ds.hght t0 500
      uwnd_500 := selTL ds.da_times ds.da_levels ds.uwnd t0 500
      vwnd_500 := selTL ds.da_times ds.da_levels ds.vwnd t0 500
      titleRight := "VALID: " ++ timeStr t0 }

/-- C2: if no entry of the vertical coordinate equals the requested level
(500), selection fails rather than returning an adjacent level: the
positional exact-equality search yields no index (indexing its empty
result raises), the acquisition cell fails, and the label-based selection
is a lookup error; no interpolation is performed. -/
theorem levelAbsent_fails (levels : List ℚ) (h : (500 : ℚ) ∉ levels) :
    (npWhereEq levels 500).head? = none ∧
    (∀ nd : NcssData, nd.isobaric = levels → acquire nd = none) ∧
    ∀ (times : List ℚ) (cube : ℕ → ℕ → Grid) (t : ℚ),
      selTL times levels cube t 500 = none := by
  have hhead : (npWhereEq levels 500).head? = none := by
    have := filter_enumFrom_nil 500 levels 0 h
    simp [npWhereEq, List.enum, this]
  refine ⟨hhead, ?_, ?_⟩
  · intro nd hiso
    unfold acquire
    rw [hiso, hhead]
    rfl
  · intro times cube t
    have hl : lookupIdx levels 500 = none := lookupIdx_none_of_not_mem _ _ h
    unfold selTL
    rw [hl]
    rcases lookupIdx times t with _ | i <;> rfl

theorem levelAbsent_fails_witness :
    (npWhereEq [(1000 : ℚ), 850, 700] 500).head? = none :=
  (levelAbsent_fails [(1000 : ℚ), 850, 700] (by decide)).1

/-- C3: when the requested time and level values are present, selection
returns exactly the 2-D slice stored at those coordinates — the label
path looks the indices up by the coordinate labels and returns the
stored slice, and the positional path finds the level index by exact
equality search and indexes the variable with it. -/
theorem levelPresent_selects (times levels : List ℚ) (cube : ℕ → ℕ → Grid)
    (t lev : ℚ) (i j : ℕ) (hndT : times.Nodup) (hndL : levels.Nodup)
    (hti : times[i]? = some t) (hlj : levels[j]? = some lev) :
    selTL times levels cube t lev = some (cube i j) ∧
    (npWhereEq levels lev).head? = some j ∧
    ∀ nd : NcssData, nd.isobaric = levels → lev = 500 →
      (acquire nd).map Selected.uwnd_500 =
        some (tagUnit mpsU (positionalSel nd.uwnd j)) := by
  have hT : lookupIdx times t = some i := lookupIdx_eq_of_getElem _ _ _ hndT hti
  have hL : lookupIdx levels lev = some j := lookupIdx_eq_of_getElem _ _ _ hndL hlj
  refine ⟨?_, hL, ?_⟩
  · unfold selTL
    rw [hT, hL]
  · intro nd hiso h500
    unfold acquire
    rw [hiso]
    have : (npWhereEq levels 500).head? = some j := by
      rw [← h500]
      exact hL
    rw [this]
    rfl

theorem levelPresent_selects_witness :
    selTL [(12 : ℚ), 18] [(1000 : ℚ), 500] (fun i j => ⟨1, 1, fun _ _ => (i : ℚ) + j⟩)
      18 500 = some ((fun i j : ℕ => (⟨1, 1, fun _ _ => (i : ℚ) + j⟩ : Grid)) 1 1) :=
  (levelPresent_selects [(12 : ℚ), 18] [(1000 : ℚ), 500]
    (fun i j => ⟨1, 1, fun _ _ => (i : ℚ) + j⟩) 18 500 1 1
    (by decide) (by decide) (by decide) (by decide)).1

/-- C9: the valid time is computed once from the time coordinate, decoded
as an offset from an epoch, and never changes: in the xarray notebook the
value interpolated into the right-hand title and the value passed to the
label selection both equal the decoded first time value, and in the
vorticity-advection notebook the selected `vtime` is the epoch-decoded
raw time and the right-hand title interpolates exactly it. -/
theorem validTime_immutable (ds : XrDataset) (n0 : ℚ)
    (h : ds.timeNs.head? = some n0) :
    ((xrRun ds).map XrOut.selTime = some (nsToTime n0) ∧
      (xrRun ds).map XrOut.titleRight =
        some ("VALID: " ++ timeStr (nsToTime n0)) ∧
      (xrRun ds).map XrOut.hght_500 =
        some (selTL ds.da_times ds.da_levels ds.hght (nsToTime n0) 500)) ∧
    ∀ (nd : NcssData) (s : Selected), acquire nd = some s →
      s.vtime = num2date nd.timeEpoch nd.timeScale nd.timeRaw ∧
      vortTitleRight s = "VALID: " ++ timeStr s.vtime := by
  constructor
  · have hh : (ds.timeNs.map nsToTime).head? = some (nsToTime n0) := by
      rw [List.head?_map, h]
      rfl
    refine ⟨?_, ?_, ?_⟩ <;>
      simp [xrRun, hh]
  · intro nd s hs
    obtain ⟨j, _, rfl⟩ := Option.map_eq_some'.mp hs
    exact ⟨rfl, rfl⟩

theorem validTime_immutable_witness :
    ((xrRun ⟨[2000000000], [2], [500], fun _ _ => ⟨1, 1, fun _ _ => 7⟩,
        fun _ _ => ⟨1, 1, fun _ _ => 7⟩, fun _ _ => ⟨1, 1, fun _ _ => 7⟩⟩).map
      XrOut.selTime) = some (nsToTime 2000000000) :=
  (validTime_immutable
    ⟨[2000000000], [2], [500], fun _ _ => ⟨1, 1, fun _ _ => 7⟩,
      fun _ _ => ⟨1, 1, fun _ _ => 7⟩, fun _ _ => ⟨1, 1, fun _ _ => 7⟩⟩
    2000000000 rfl).1.1

/-! ## Data acquisition paths

Both notebooks fix `dt = datetime(2016, 4, 16, 18)` and build their
access path from it with the format specifiers `%Y%m`, `%Y%m%d` and
`%H`.  The xarray notebook opens
`https://www.ncei.noaa.gov/thredds/dodsC/model-namanl-old/` + the date
path + the dataset name over OPeNDAP; the vorticity-advection notebook
opens `https://www.ncei.noaa.gov/thredds/catalog/model-namanl-old/` +
the date path + `catalog.xml` and picks the dataset of the same name
from the catalog. -/

/-- A timestamp as the notebooks use it: `datetime(year, month, day,
hour)`. -/
structure Datetime where
  year : ℕ
  month : ℕ
  day : ℕ
  hour : ℕ

/-- Zero-padding of a number to a field width, as the `%` format
specifiers of `strftime` produce it. -/
def padZ (w : ℕ) (n : ℕ) : String :=
  String.mk (List.replicate (w - (toString n).length) ('0')) ++ toString n

/-- The `%Y%m` format: four-digit year and two-digit month. -/
def fmtYm (d : Datetime) : String := padZ 4 d.year ++ padZ 2 d.month

/-- The `%Y%m%d` format. -/
def fmtYmd (d : Datetime) : String :=
  padZ 4 d.year ++ padZ 2 d.month ++ padZ 2 d.day

/-- The `%H` format: two-digit hour. -/
def fmtH (d : Datetime) : String := padZ 2 d.hour

/-- The OPeNDAP base URL of the xarray notebook. -/
def xr_base_url : String :=
  "https://www.ncei.noaa.gov/thredds/dodsC/model-namanl-old/"

/-- The full dataset URL the xarray notebook opens. -/
def xr_dataset_url (d : Datetime) : String :=
  xr_base_url ++ fmtYm d ++ "/" ++ fmtYmd d ++ "/namanl_218_" ++ fmtYmd d ++
    "_" ++ fmtH d ++ "00_000.grb"

/-- The catalog base URL of the vorticity-advection notebook. -/
def vort_base_url : String :=
  "https://www.ncei.noaa.gov/thredds/catalog/model-namanl-old/"

/-- The catalog URL the vorticity-advection notebook opens. -/
def vort_catalog_url (d : Datetime) : String :=
  vort_base_url ++ fmtYm d ++ "/" ++ fmtYmd d ++ "/catalog.xml"

/-- The dataset name the vorticity-advection notebook picks from the
catalog. -/
def vort_dataset_key (d : Datetime) : String :=
  "namanl_218_" ++ fmtYmd d ++ "_" ++ fmtH d ++ "00_000.grb"

/-- The archive root host shared by both strategies (from the claim). -/
def archiveRoot : String := "https://www.ncei.noaa.gov/thredds/"

/-- The model identifier shared by both strategies (from the claim). -/
def modelId : String := "model-namanl-old"

/-- The `%Y%m/%Y%m%d` date path components shared by both strategies
(from the claim). -/
def datePath (d : Datetime) : String := fmtYm d ++ "/" ++ fmtYmd d

/-- The dataset name `namanl_218_%Y%m%d_%H00_000.grb` shared by both
strategies (from the claim). -/
def productName (d : Datetime) : String :=
  "namanl_218_" ++ fmtYmd d ++ "_" ++ fmtH d ++ "00_000.grb"

/-- C5: for every target timestamp the two acquisition strategies address
the same archived product — both access paths decompose over the same
archive root host and model identifier followed by the same
`%Y%m/%Y%m%d` date path, and the dataset name in both is
`namanl_218_%Y%m%d_%H00_000.grb` of the same timestamp. -/
theorem acquisition_same_product (d : Datetime) :
    xr_dataset_url d =
      archiveRoot ++ "dodsC/" ++ modelId ++ "/" ++ datePath d ++ "/" ++
        productName d ∧
    vort_catalog_url d =
      archiveRoot ++ "catalog/" ++ modelId ++ "/" ++ datePath d ++
        "/catalog.xml" ∧
    vort_dataset_key d = productName d := by
  have hb : archiveRoot ++ ("dodsC/" ++ (modelId ++ "/")) = xr_base_url := by
    decide
  have hc : archiveRoot ++ ("catalog/" ++ (modelId ++ "/")) = vort_base_url := by
    decide
  have hn0 : ("/" : String) ++ "namanl_218_" = "/namanl_218_" := by decide
  have hn : ∀ x : String, ("/" : String) ++ ("namanl_218_" ++ x) =
      "/namanl_218_" ++ x := by
    intro x
    rw [← String.append_assoc, hn0]
  refine ⟨?_, ?_, rfl⟩
  · rw [xr_dataset_url, datePath, productName, ← hb]
    simp only [String.append_assoc, hn]
  · rw [vort_catalog_url, datePath, ← hc]
    simp only [String.append_assoc]

end PyTraining
